import Mathlib

/-!
# Agentic Threat Intel Feed — verification of the spec against the code

Shallow embedding of the policy logic of the repository
(`config.py`, `deduplicator.py`, `enricher.py`, `deep_diver.py`, `agent.py`)
and proofs of the specified properties.

External effects (HTTP, DNS, the LLM client, HTML extraction) are modelled as
oracle functions passed explicitly; the SQLite `seen_items` table is modelled
as the finite set of stored fingerprints; SHA-256 is an abstract fingerprint
function, universally quantified.
-/

namespace ThreatIntel

/-! ## config.py -/

/-- `config._clamp`: clamp an integer config value to `[lo, hi]`. -/
def clampCfg (value lo hi : Int) : Int :=
  if value < lo then lo
  else if value > hi then hi
  else value

/-- `config.POLL_INTERVAL_SECONDS = max(60, int(env or "300"))`. -/
def POLL_INTERVAL_SECONDS (env : Option Int) : Int := max 60 (env.getD 300)

/-- `config.SEVERITY_THRESHOLD = _clamp(int(env or "6"), 1, 10)`. -/
def SEVERITY_THRESHOLD (env : Option Int) : Int := clampCfg (env.getD 6) 1 10

/-- `config.DEEP_DIVE_MIN_SEVERITY = _clamp(int(env or "8"), 1, 10)`. -/
def DEEP_DIVE_MIN_SEVERITY (env : Option Int) : Int := clampCfg (env.getD 8) 1 10

/-- `config.DEEP_DIVE_MAX_PER_CYCLE = max(1, int(env or "3"))`. -/
def DEEP_DIVE_MAX_PER_CYCLE (env : Option Int) : Int := max 1 (env.getD 3)

/-- `config.SPIKE_TRIGGER_COUNT = max(1, int(env or "3"))`. -/
def SPIKE_TRIGGER_COUNT (env : Option Int) : Int := max 1 (env.getD 3)

/-- `config.SPIKE_SEVERITY_MIN = _clamp(int(env or "8"), 1, 10)`. -/
def SPIKE_SEVERITY_MIN (env : Option Int) : Int := clampCfg (env.getD 8) 1 10

/-- `config.SPIKE_POLL_SECONDS = max(30, int(env or "60"))`. -/
def SPIKE_POLL_SECONDS (env : Option Int) : Int := max 30 (env.getD 60)

/-- `config.SPIKE_DURATION_SECONDS = max(60, int(env or "7200"))`. -/
def SPIKE_DURATION_SECONDS (env : Option Int) : Int := max 60 (env.getD 7200)

/-! ## Data model

`RawItem` is a collected item (`collector._normalize_rss` et al.);
`EnrichedItem` is a raw item plus the triage fields the enricher merges in
(`{**item, "summary": …, "severity": …, "topics": …}`). -/

structure RawItem where
  id : String
  title : String
  url : String
  source : String
  published : String
  content : String
deriving DecidableEq, Repr

structure EnrichedItem where
  item : RawItem
  summary : String
  severity : Int
  topics : List String
deriving DecidableEq, Repr

/-! ## deduplicator.py

The SQLite table `seen_items(fingerprint TEXT PRIMARY KEY)` is modelled as a
`Finset String` of stored fingerprints.  `_fingerprint` (SHA-256 of
`item["id"]`) is an abstract function `fp : String → String` quantified in
every theorem. -/

/-- `deduplicator.filter_new`: keep only items whose fingerprint is not in
the `seen_items` table. -/
def filter_new (fp : String → String) (seen : Finset String) (items : List RawItem) :
    List RawItem :=
  items.filter (fun i => fp i.id ∉ seen)

/-- `deduplicator.mark_seen`: `INSERT OR IGNORE` each item's fingerprint into
the `seen_items` table. -/
def mark_seen (fp : String → String) (seen : Finset String) (items : List RawItem) :
    Finset String :=
  seen ∪ (items.map (fun i => fp i.id)).toFinset

/-- The seen-set reached from an empty store by a sequence of `mark_seen`
calls (one call per batch in `history`). -/
def seenAfter (fp : String → String) (history : List (List RawItem)) : Finset String :=
  history.foldl (mark_seen fp) ∅

/-! ## enricher.py

The Claude call and the JSON parse are modelled by a per-batch oracle
`outcome : Nat → BatchOutcome` (batch index ↦ what the `try` block produced)
and the persisted daily-cost check by `budget : Nat → Bool` (batch index ↦
value of `_budget_remaining()` when that batch comes up). -/

/-- One element of the JSON array Claude returns for a batch.  A field is
`none` when the key is missing or its value does not have the type
`_validate_result` checks for. -/
structure TriageResult where
  relevant : Option Bool
  severity : Option Int
  summary : String
  topics : Option (List String)
deriving DecidableEq, Repr

/-- `enricher._validate_result`: `relevant` must be a bool, `severity` an int
in `[0, 10]`, `topics` a list. -/
def validate_result (r : TriageResult) : Bool :=
  r.relevant.isSome &&
  (match r.severity with
   | some s => decide (0 ≤ s) && decide (s ≤ 10)
   | none => false) &&
  r.topics.isSome

/-- What the `try` block of one batch iteration produced:
`apiError` = any exception from the API call, `parseError` =
`json.JSONDecodeError`, `ok results` = the parsed JSON array. -/
inductive BatchOutcome where
  | apiError
  | parseError
  | ok (results : List TriageResult)
deriving DecidableEq, Repr

/-- `enricher.BATCH_SIZE`. -/
def BATCH_SIZE : Nat := 15

/-- Fuel-driven helper for `chunksOf` (structural, so it evaluates). -/
def chunksOfAux {α : Type} (n : Nat) : Nat → List α → List (List α)
  | 0, _ => []
  | _ + 1, [] => []
  | fuel + 1, x :: xs => ((x :: xs).take n) :: chunksOfAux n fuel ((x :: xs).drop n)

/-- `items[batch_start : batch_start + BATCH_SIZE]` for
`batch_start in range(0, len(items), BATCH_SIZE)`: split a list into
consecutive chunks of size `n`. -/
def chunksOf {α : Type} (n : Nat) (l : List α) : List (List α) :=
  chunksOfAux n l.length l

/-- The error branches of `enrich`: the item is kept with
`summary="", severity=0, topics=[]`. -/
def failEnrich (i : RawItem) : EnrichedItem := ⟨i, "", 0, []⟩

/-- The merge `{**item, "summary": …, "severity": …, "topics": …}` performed
for a validated, relevant result. -/
def mkEnriched (i : RawItem) (r : TriageResult) : EnrichedItem :=
  ⟨i, r.summary, r.severity.getD 0, r.topics.getD []⟩

/-- The `for item, result in zip(batch, results)` loop of a successful batch:
drop results failing schema validation, keep relevant ones. -/
def processOkBatch (batch : List RawItem) (results : List TriageResult) :
    List EnrichedItem :=
  (batch.zip results).filterMap (fun p =>
    if validate_result p.2 && (p.2.relevant == some true) then
      some (mkEnriched p.1 p.2)
    else none)

/-- The batch loop of `enricher.enrich` starting at batch index `b`:
stop (`break`) when the daily budget is exhausted, otherwise process the
batch according to its outcome and continue. -/
def enrichGo (budget : Nat → Bool) (outcome : Nat → BatchOutcome) :
    Nat → List (List RawItem) → List EnrichedItem
  | _, [] => []
  | b, batch :: rest =>
    if budget b then
      (match outcome b with
       | .apiError => batch.map failEnrich
       | .parseError => batch.map failEnrich
       | .ok results => processOkBatch batch results) ++
      enrichGo budget outcome (b + 1) rest
    else []

/-- `enricher.enrich`. -/
def enrich (budget : Nat → Bool) (outcome : Nat → BatchOutcome)
    (items : List RawItem) : List EnrichedItem :=
  if items.isEmpty then []
  else enrichGo budget outcome 0 (chunksOf BATCH_SIZE items)

/-! ## deep_diver.py — candidate selection and merge -/

/-- The JSON object `_call_claude` extracts for a deep dive (field defaults
as merged by `deep_dive`). -/
structure DeepAnalysis where
  deep_summary : String
  iocs : List String
  affected_products : List String
  cve_ids : List String
  threat_actor : String
  mitigations : List String
deriving DecidableEq, Repr

/-- One element of the list `deep_dive` returns: the underlying item,
plus `some analysis` exactly when the merge `{**item, "deep_dive": True, …}`
happened. -/
structure DivedItem where
  base : EnrichedItem
  deep : Option DeepAnalysis
deriving DecidableEq, Repr

/-- The sort key of `sorted(candidates, key=…severity, reverse=True)`:
`a` may come before `b` iff `a`'s severity is at least `b`'s.  A stable sort
by this relation is exactly Python's stable descending sort. -/
def bySevDesc (a b : EnrichedItem) : Prop := b.severity ≤ a.severity

instance : DecidableRel bySevDesc :=
  fun a b => inferInstanceAs (Decidable (b.severity ≤ a.severity))

instance : IsTotal EnrichedItem bySevDesc :=
  ⟨fun a b => le_total b.severity a.severity⟩

instance : IsTrans EnrichedItem bySevDesc :=
  ⟨fun _ _ _ hab hbc => le_trans hbc hab⟩

/-- `deep_dive` lines 259–265: filter by `DEEP_DIVE_MIN_SEVERITY`, stable
sort by severity descending, cap at `DEEP_DIVE_MAX_PER_CYCLE`. -/
def deep_dive_candidates (minSev cap : Int) (items : List EnrichedItem) :
    List EnrichedItem :=
  (List.insertionSort bySevDesc
    (items.filter (fun i => decide (minSev ≤ i.severity)))).take cap.toNat

/-- `candidate_urls = {i["url"] for i in candidates}` (membership only, so a
list of urls models the set). -/
def candidateUrls (minSev cap : Int) (items : List EnrichedItem) : List String :=
  (deep_dive_candidates minSev cap items).map (fun i => i.item.url)

/-- The items the per-item loop of `deep_dive` sends down the candidate path
(`item["url"] in candidate_urls`). -/
def deep_dive_treated (minSev cap : Int) (items : List EnrichedItem) :
    List EnrichedItem :=
  items.filter (fun i => decide (i.item.url ∈ candidateUrls minSev cap items))

/-- The body of the `for item in items` loop of `deep_dive`: non-candidates
(by url membership) pass through; for candidates a failed or empty fetch
(`if not content`) and a failed or falsy analysis (`if not analysis`) also
pass the item through; otherwise the analysis is merged. -/
def deepDiveItem (minSev cap : Int) (fetch : String → Option String)
    (analyze : EnrichedItem → String → Option DeepAnalysis)
    (items : List EnrichedItem) (item : EnrichedItem) : DivedItem :=
  if item.item.url ∈ candidateUrls minSev cap items then
    match fetch item.item.url with
    | none => ⟨item, none⟩
    | some content =>
      if content = "" then ⟨item, none⟩
      else
        match analyze item content with
        | none => ⟨item, none⟩
        | some a => ⟨item, some a⟩
  else ⟨item, none⟩

/-- `deep_diver.deep_dive`.  `fetch` models `_fetch_content` (`none` =
unsafe / unreachable / paywalled) and `analyze` models `_call_claude`
(`none` = API error, JSON parse error, or a falsy parsed value). -/
def deep_dive (minSev cap : Int) (fetch : String → Option String)
    (analyze : EnrichedItem → String → Option DeepAnalysis)
    (items : List EnrichedItem) : List DivedItem :=
  items.map (deepDiveItem minSev cap fetch analyze items)

/-! ## deep_diver.py — SSRF-safe content fetching -/

/-- `deep_diver._MAX_RESPONSE_BYTES`. -/
def MAX_RESPONSE_BYTES : Nat := 5 * 1024 * 1024

/-- An IP address as returned by `socket.gethostbyname` + `ip_address`. -/
inductive IpAddr where
  | v4 (n : Nat)
  | v6 (n : Nat)
deriving DecidableEq, Repr

/-- Numeric value of a dotted-quad IPv4 address. -/
def ipv4Addr (a b c d : Nat) : Nat := ((a * 256 + b) * 256 + c) * 256 + d

/-- CIDR membership: `addr` is in `base/maskBits` within a `width`-bit
address space. -/
def inNet (width addr base maskBits : Nat) : Bool :=
  addr / 2 ^ (width - maskBits) = base / 2 ^ (width - maskBits)

/-- `deep_diver._PRIVATE_NETWORKS` membership (`any(addr in net …)`;
`ipaddress` network membership is `False` across address versions). -/
def isPrivateIp : IpAddr → Bool
  | .v4 n =>
    inNet 32 n (ipv4Addr 10 0 0 0) 8 ||
    inNet 32 n (ipv4Addr 172 16 0 0) 12 ||
    inNet 32 n (ipv4Addr 192 168 0 0) 16 ||
    inNet 32 n (ipv4Addr 127 0 0 0) 8 ||
    inNet 32 n (ipv4Addr 169 254 0 0) 16 ||
    inNet 32 n (ipv4Addr 100 64 0 0) 10 ||
    inNet 32 n (ipv4Addr 0 0 0 0) 8
  | .v6 n =>
    inNet 128 n 1 128 ||
    inNet 128 n (0xfc00 * 2 ^ 112) 7 ||
    inNet 128 n (0xfe80 * 2 ^ 112) 10

/-- `urlparse` output, as far as `_is_safe_url` looks at it.  `hostname` is
`none` when absent or empty. -/
structure UrlParts where
  scheme : String
  hostname : Option String
deriving DecidableEq, Repr

/-- `deep_diver._is_safe_url`: HTTPS scheme, hostname present, resolution
succeeds, and the resolved address is in no private network.  `parse` models
`urlparse`; `resolve` models `gethostbyname` + `ip_address` (`none` = any
exception). -/
def is_safe_url (parse : String → UrlParts) (resolve : String → Option IpAddr)
    (url : String) : Bool :=
  let p := parse url
  if p.scheme ≠ "https" then false
  else
    match p.hostname with
    | none => false
    | some host =>
      match resolve host with
      | none => false
      | some addr => !isPrivateIp addr

/-- An HTTP response, as far as `_fetch_content` looks at it.  `location` is
`headers.get("location", "")`. -/
structure HttpResponse where
  statusCode : Nat
  contentLength : Option Nat
  location : String
  text : String
deriving DecidableEq, Repr

/-- Result of one `client.get`: a response, or any raised exception. -/
inductive HttpResult where
  | exn
  | resp (r : HttpResponse)
deriving DecidableEq, Repr

/-- `resp.status_code in (301, 302, 303, 307, 308)`. -/
def isRedirectStatus (s : Nat) : Bool :=
  s == 301 || s == 302 || s == 303 || s == 307 || s == 308

/-- `content_length and int(content_length) > _MAX_RESPONSE_BYTES`. -/
def responseTooLarge (r : HttpResponse) : Bool :=
  match r.contentLength with
  | some n => decide (MAX_RESPONSE_BYTES < n)
  | none => false

/-- `deep_diver._PAYWALL_PHRASES`. -/
def PAYWALL_PHRASES : List String :=
  ["subscribe to read",
   "subscribe to continue",
   "sign in to read",
   "sign up to read",
   "create an account to continue",
   "premium content",
   "members only",
   "this content is for subscribers",
   "to continue reading",
   "register to read"]

/-- Python's `phrase in lowered` substring test. -/
def containsPhrase (haystack phrase : String) : Bool :=
  decide (List.IsInfix phrase.toList haystack.toList)

/-- `deep_diver._is_paywalled`. -/
def is_paywalled (statusCode : Nat) (text : String) : Bool :=
  if statusCode == 401 || statusCode == 402 || statusCode == 403 then true
  else if PAYWALL_PHRASES.any (fun p => containsPhrase text.toLower p) then true
  else if text.trim.length < 300 then true
  else false

/-- `deep_diver` redirect cap: `max_redirects = 5`. -/
def MAX_REDIRECTS : Nat := 5

/-- The `for _ in range(max_redirects + 1)` loop of `_fetch_content`, with
`fuel` = iterations still allowed after the current one.  Returns the
response the loop left in `resp` (or `none` for the early `return None`
paths) together with the list of URLs a GET was issued to. -/
def fetchLoop (safe : String → Bool) (http : String → HttpResult) :
    Nat → String → Option HttpResponse × List String
  | fuel, cur =>
    match http cur with
    | .exn => (none, [cur])
    | .resp r =>
      if responseTooLarge r then (none, [cur])
      else if isRedirectStatus r.statusCode then
        if r.location = "" then (some r, [cur])
        else if safe r.location then
          match fuel with
          | 0 => (some r, [cur])
          | fuel' + 1 =>
            let rest := fetchLoop safe http fuel' r.location
            (rest.1, cur :: rest.2)
        else (none, [cur])
      else (some r, [cur])

/-- `deep_diver._fetch_content`.  `extract` models `_extract_text`
(BeautifulSoup text extraction).  Returns the extracted text (or `none`)
together with the list of URLs a GET was issued to. -/
def fetch_content (parse : String → UrlParts) (resolve : String → Option IpAddr)
    (http : String → HttpResult) (extract : String → String) (url : String) :
    Option String × List String :=
  if is_safe_url parse resolve url then
    match fetchLoop (is_safe_url parse resolve) http MAX_REDIRECTS url with
    | (none, tr) => (none, tr)
    | (some r, tr) =>
      let text := extract (r.text.take MAX_RESPONSE_BYTES)
      if is_paywalled r.statusCode text then (none, tr)
      else (some text, tr)
  else (none, [])

/-! ## agent.py -/

/-- Step 4 of `run_cycle`: the severity-threshold filter
`[i for i in enriched if i.get("severity", 0) >= config.SEVERITY_THRESHOLD]`. -/
def to_notify (threshold : Int) (enriched : List EnrichedItem) : List EnrichedItem :=
  enriched.filter (fun i => decide (threshold ≤ i.severity))

/-- The configuration values `run_cycle` reads. -/
structure CycleConfig where
  severityThreshold : Int
  deepDiveMinSeverity : Int
  deepDiveMaxPerCycle : Int
  spikeSeverityMin : Int
deriving Repr

/-- `agent.run_cycle`, returning the cycle's return value together with the
new state of the `seen_items` store.  Notification delivery has no effect on
either and is omitted. -/
def run_cycle (cfg : CycleConfig) (fp : String → String)
    (budget : Nat → Bool) (outcome : Nat → BatchOutcome)
    (fetch : String → Option String)
    (analyze : EnrichedItem → String → Option DeepAnalysis)
    (seen : Finset String) (raw : List RawItem) : Nat × Finset String :=
  let new_items := filter_new fp seen raw
  if new_items.isEmpty then (0, seen)
  else
    let enriched := enrich budget outcome new_items
    let seen' := mark_seen fp seen new_items
    let notifiable := to_notify cfg.severityThreshold enriched
    if notifiable.isEmpty then (0, seen')
    else
      let dived := deep_dive cfg.deepDiveMinSeverity cfg.deepDiveMaxPerCycle
        fetch analyze notifiable
      ((dived.filter (fun d => decide (cfg.spikeSeverityMin ≤ d.base.severity))).length,
       seen')

/-- One turn of the adaptive-polling loop body in `agent.main` (lines
162–188): given the spike deadline carried from the previous cycle, the
cycle's returned high-severity count and the current time, produce the new
deadline and the sleep chosen.  `st = none` is NORMAL, `st = some e` is
SPIKE with `expires_at = e`. -/
def spikeStep (trigger dur spikePoll pollInt : Int) (st : Option Int)
    (count : Nat) (now : Int) : Option Int × Int :=
  let st1 := if trigger ≤ (count : Int) then some (now + dur) else st
  match st1 with
  | some e => if now < e then (some e, spikePoll) else (none, pollInt)
  | none => (none, pollInt)

/-- The spike deadline after a run of cycles described by
`l : List (count, now)`, starting from `spike_until = None`. -/
def spikeStateAfter (trigger dur spikePoll pollInt : Int)
    (l : List (Nat × Int)) : Option Int :=
  l.foldl (fun st ct => (spikeStep trigger dur spikePoll pollInt st ct.1 ct.2).1) none

/-! ## Lemmas -/

lemma mem_mark_seen (fp : String → String) (seen : Finset String)
    (items : List RawItem) (x : String) :
    x ∈ mark_seen fp seen items ↔ x ∈ seen ∨ ∃ i ∈ items, fp i.id = x := by
  simp [mark_seen, List.mem_map, eq_comm]

lemma mem_foldl_mark_seen (fp : String → String) :
    ∀ (hist : List (List RawItem)) (s : Finset String) (x : String),
      x ∈ hist.foldl (mark_seen fp) s ↔ x ∈ s ∨ ∃ m ∈ hist.flatten, fp m.id = x := by
  intro hist
  induction hist with
  | nil => simp
  | cons c cs ih =>
    intro s x
    show x ∈ cs.foldl (mark_seen fp) (mark_seen fp s c) ↔ _
    rw [ih, mem_mark_seen]
    simp only [List.flatten_cons, List.mem_append]
    constructor
    · rintro ((h | ⟨i, hi, he⟩) | ⟨m, hm, he⟩)
      · exact Or.inl h
      · exact Or.inr ⟨i, Or.inl hi, he⟩
      · exact Or.inr ⟨m, Or.inr hm, he⟩
    · rintro (h | ⟨m, (hm | hm), he⟩)
      · exact Or.inl (Or.inl h)
      · exact Or.inl (Or.inr ⟨m, hm, he⟩)
      · exact Or.inr ⟨m, hm, he⟩

lemma mem_seenAfter (fp : String → String) (history : List (List RawItem)) (x : String) :
    x ∈ seenAfter fp history ↔ ∃ m ∈ history.flatten, fp m.id = x := by
  rw [seenAfter, mem_foldl_mark_seen]
  simp

lemma enrich_eq (budget : Nat → Bool) (outcome : Nat → BatchOutcome)
    (items : List RawItem) :
    enrich budget outcome items =
      enrichGo budget outcome 0 (chunksOf BATCH_SIZE items) := by
  cases items with
  | nil => rfl
  | cons x xs => rfl

lemma chunksOfAux_flatten {α : Type} (n : Nat) (hn : 0 < n) :
    ∀ (fuel : Nat) (l : List α), l.length ≤ fuel →
      (chunksOfAux n fuel l).flatten = l := by
  intro fuel
  induction fuel with
  | zero =>
    intro l hl
    have : l = [] := List.length_eq_zero.mp (Nat.le_zero.mp hl)
    subst this; rfl
  | succ fuel ih =>
    intro l hl
    cases l with
    | nil => rfl
    | cons x xs =>
      show (((x :: xs).take n) :: chunksOfAux n fuel ((x :: xs).drop n)).flatten = _
      rw [List.flatten_cons,
        ih ((x :: xs).drop n)
          (by rw [List.length_drop, List.length_cons]
              rw [List.length_cons] at hl
              omega)]
      exact List.take_append_drop n (x :: xs)

lemma chunksOf_flatten {α : Type} (n : Nat) (hn : 0 < n) (l : List α) :
    (chunksOf n l).flatten = l :=
  chunksOfAux_flatten n hn l.length l le_rfl

lemma mem_processOkBatch (batch : List RawItem) (results : List TriageResult)
    (e : EnrichedItem) (he : e ∈ processOkBatch batch results) : e.item ∈ batch := by
  obtain ⟨p, hp, hfe⟩ := List.mem_filterMap.mp he
  by_cases hc : (validate_result p.2 && (p.2.relevant == some true)) = true
  · rw [if_pos hc] at hfe
    obtain rfl := Option.some_injective _ hfe
    exact (List.of_mem_zip hp).1
  · rw [if_neg hc] at hfe
    exact absurd hfe (Option.some_ne_none _).symm

lemma mem_enrichGo (budget : Nat → Bool) (outcome : Nat → BatchOutcome) :
    ∀ (cs : List (List RawItem)) (n : Nat) (e : EnrichedItem),
      e ∈ enrichGo budget outcome n cs → e.item ∈ cs.flatten := by
  intro cs
  induction cs with
  | nil => intro n e he; exact absurd he (List.not_mem_nil e)
  | cons c rest ih =>
    intro n e he
    rw [enrichGo] at he
    by_cases hb : budget n = true
    · rw [if_pos hb, List.mem_append] at he
      rw [List.flatten_cons, List.mem_append]
      rcases he with he | he
      · left
        cases ho : outcome n with
        | apiError =>
          rw [ho] at he
          obtain ⟨i, hi, hfe⟩ := List.mem_map.mp he
          exact hfe ▸ hi
        | parseError =>
          rw [ho] at he
          obtain ⟨i, hi, hfe⟩ := List.mem_map.mp he
          exact hfe ▸ hi
        | ok results =>
          rw [ho] at he
          exact mem_processOkBatch c results e he
      · exact Or.inr (ih (n + 1) e he)
    · rw [if_neg hb] at he
      exact absurd he (List.not_mem_nil e)

lemma filter_id_eq_single (l : List RawItem) (hnd : (l.map RawItem.id).Nodup)
    (i : RawItem) (hi : i ∈ l) :
    l.filter (fun j => j.id == i.id) = [i] := by
  induction l with
  | nil => exact absurd hi (List.not_mem_nil i)
  | cons a l' ih =>
    simp only [List.map_cons, List.nodup_cons] at hnd
    by_cases ha : a.id = i.id
    · have hai : a = i := by
        rcases List.mem_cons.mp hi with h | h
        · exact h.symm
        · exact absurd (ha ▸ List.mem_map_of_mem RawItem.id h) hnd.1
      subst hai
      rw [List.filter_cons_of_pos (by simp)]
      congr 1
      rw [List.filter_eq_nil_iff]
      intro j hj
      simp only [beq_iff_eq]
      intro hje
      exact hnd.1 (hje ▸ List.mem_map_of_mem RawItem.id hj)
    · have hi' : i ∈ l' := by
        rcases List.mem_cons.mp hi with h | h
        · exact absurd (h ▸ rfl) ha
        · exact h
      rw [List.filter_cons_of_neg (by simpa using ha), ih hnd.2 hi']

lemma filter_disjoint_nil (out : List EnrichedItem) (iid : String)
    (h : ∀ e ∈ out, e.item.id ≠ iid) :
    out.filter (fun e => e.item.id == iid) = [] := by
  rw [List.filter_eq_nil_iff]
  intro e he
  simpa using h e he

lemma mem_batchOutput (o : BatchOutcome) (c : List RawItem) (e : EnrichedItem)
    (he : e ∈ (match o with
               | .apiError => c.map failEnrich
               | .parseError => c.map failEnrich
               | .ok results => processOkBatch c results)) :
    e.item ∈ c := by
  cases o with
  | apiError =>
    obtain ⟨i, hi, hfe⟩ := List.mem_map.mp he
    exact hfe ▸ hi
  | parseError =>
    obtain ⟨i, hi, hfe⟩ := List.mem_map.mp he
    exact hfe ▸ hi
  | ok results => exact mem_processOkBatch c results e he

lemma mem_getD_flatten {α : Type} :
    ∀ (cs : List (List α)) (b : Nat), b < cs.length →
      ∀ i ∈ cs.getD b [], i ∈ cs.flatten := by
  intro cs
  induction cs with
  | nil => intro b hb; simp at hb
  | cons c rest ih =>
    intro b hb i hi
    rw [List.flatten_cons, List.mem_append]
    cases b with
    | zero => exact Or.inl hi
    | succ b' =>
      right
      exact ih b' (by simpa using hb) i hi

lemma enrichGo_failed_parts (budget : Nat → Bool) (outcome : Nat → BatchOutcome) :
    ∀ (b : Nat) (cs : List (List RawItem)) (n : Nat),
      (∀ k, k ≤ b → budget (n + k) = true) →
      (outcome (n + b) = .apiError ∨ outcome (n + b) = .parseError) →
      b < cs.length →
      ∃ pre post, enrichGo budget outcome n cs =
        pre ++ (cs.getD b []).map failEnrich ++ post := by
  intro b
  induction b with
  | zero =>
    intro cs n hbud hfail hlen
    cases cs with
    | nil => simp at hlen
    | cons c rest =>
      have hb : budget n = true := by simpa using hbud 0 le_rfl
      refine ⟨[], enrichGo budget outcome (n + 1) rest, ?_⟩
      rw [enrichGo, if_pos hb]
      simp only [Nat.add_zero] at hfail
      rcases hfail with hf | hf <;> rw [hf] <;> simp [List.getD_cons_zero]
  | succ b' ih =>
    intro cs n hbud hfail hlen
    cases cs with
    | nil => simp at hlen
    | cons c rest =>
      have hb : budget n = true := by simpa using hbud 0 (Nat.zero_le _)
      have hbud' : ∀ k, k ≤ b' → budget (n + 1 + k) = true := by
        intro k hk
        have := hbud (k + 1) (by omega)
        rwa [show n + (k + 1) = n + 1 + k by omega] at this
      have hfail' : outcome (n + 1 + b') = .apiError ∨ outcome (n + 1 + b') = .parseError := by
        rwa [show n + 1 + b' = n + (b' + 1) by omega]
      obtain ⟨pre', post', hsplit⟩ := ih rest (n + 1) hbud' hfail' (by simpa using hlen)
      refine ⟨(match outcome n with
               | .apiError => c.map failEnrich
               | .parseError => c.map failEnrich
               | .ok results => processOkBatch c results) ++ pre', post', ?_⟩
      rw [enrichGo, if_pos hb, hsplit, List.getD_cons_succ]
      simp [List.append_assoc]

lemma enrichGo_filter_failed (budget : Nat → Bool) (outcome : Nat → BatchOutcome) :
    ∀ (b : Nat) (cs : List (List RawItem)) (n : Nat),
      ((cs.flatten.map RawItem.id).Nodup) →
      (∀ k, k ≤ b → budget (n + k) = true) →
      (outcome (n + b) = .apiError ∨ outcome (n + b) = .parseError) →
      b < cs.length →
      ∀ i ∈ cs.getD b [],
        (enrichGo budget outcome n cs).filter (fun e => e.item.id == i.id) =
          [failEnrich i] := by
  intro b
  induction b with
  | zero =>
    intro cs n hnd hbud hfail hlen i hi
    cases cs with
    | nil => simp at hlen
    | cons c rest =>
      rw [List.getD_cons_zero] at hi
      have hb : budget n = true := by simpa using hbud 0 le_rfl
      rw [List.flatten_cons, List.map_append, List.nodup_append] at hnd
      obtain ⟨hndc, hndrest, hdisj⟩ := hnd
      rw [enrichGo, if_pos hb, List.filter_append]
      have h1 : ((match outcome n with
                  | .apiError => c.map failEnrich
                  | .parseError => c.map failEnrich
                  | .ok results => processOkBatch c results : List EnrichedItem)).filter
                   (fun e => e.item.id == i.id) = [failEnrich i] := by
        simp only [Nat.add_zero] at hfail
        rcases hfail with hf | hf <;>
        · rw [hf]
          rw [List.filter_map]
          have hcomp : ((fun (e : EnrichedItem) => e.item.id == i.id) ∘ failEnrich) =
              (fun (j : RawItem) => j.id == i.id) := rfl
          rw [hcomp, filter_id_eq_single c hndc i hi]
          rfl
      have h2 : (enrichGo budget outcome (n + 1) rest).filter
          (fun e => e.item.id == i.id) = [] := by
        apply filter_disjoint_nil
        intro e he hee
        have hmem := mem_enrichGo budget outcome rest (n + 1) e he
        exact hdisj (List.mem_map_of_mem RawItem.id hi)
          (hee ▸ List.mem_map_of_mem RawItem.id hmem)
      rw [h1, h2, List.append_nil]
  | succ b' ih =>
    intro cs n hnd hbud hfail hlen i hi
    cases cs with
    | nil => simp at hlen
    | cons c rest =>
      rw [List.getD_cons_succ] at hi
      have hb : budget n = true := by simpa using hbud 0 (Nat.zero_le _)
      rw [List.flatten_cons, List.map_append, List.nodup_append] at hnd
      obtain ⟨hndc, hndrest, hdisj⟩ := hnd
      have hbud' : ∀ k, k ≤ b' → budget (n + 1 + k) = true := by
        intro k hk
        have := hbud (k + 1) (by omega)
        rwa [show n + (k + 1) = n + 1 + k by omega] at this
      have hfail' : outcome (n + 1 + b') = .apiError ∨
          outcome (n + 1 + b') = .parseError := by
        rwa [show n + 1 + b' = n + (b' + 1) by omega]
      have hlen' : b' < rest.length := by simpa using hlen
      have himem : i ∈ rest.flatten := mem_getD_flatten rest b' hlen' i hi
      rw [enrichGo, if_pos hb, List.filter_append]
      have h1 : ((match outcome n with
                  | .apiError => c.map failEnrich
                  | .parseError => c.map failEnrich
                  | .ok results => processOkBatch c results : List EnrichedItem)).filter
                   (fun e => e.item.id == i.id) = [] := by
        apply filter_disjoint_nil
        intro e he hee
        have hmem := mem_batchOutput (outcome n) c e he
        exact hdisj (List.mem_map_of_mem RawItem.id hmem)
          (hee ▸ List.mem_map_of_mem RawItem.id himem)
      rw [h1, ih rest (n + 1) hndrest hbud' hfail' hlen' i hi, List.nil_append]

lemma deepDiveItem_base (minSev cap : Int) (fetch : String → Option String)
    (analyze : EnrichedItem → String → Option DeepAnalysis)
    (items : List EnrichedItem) (item : EnrichedItem) :
    (deepDiveItem minSev cap fetch analyze items item).base = item := by
  unfold deepDiveItem
  by_cases h : item.item.url ∈ candidateUrls minSev cap items
  · rw [if_pos h]
    cases fetch item.item.url with
    | none => rfl
    | some content =>
      dsimp only
      by_cases hc : content = ""
      · rw [if_pos hc]
      · rw [if_neg hc]
        cases analyze item content <;> rfl
  · rw [if_neg h]

lemma map_deepDiveItem_base (minSev cap : Int) (fetch : String → Option String)
    (analyze : EnrichedItem → String → Option DeepAnalysis)
    (items : List EnrichedItem) :
    ∀ l : List EnrichedItem,
      (l.map (deepDiveItem minSev cap fetch analyze items)).map DivedItem.base = l := by
  intro l
  induction l with
  | nil => rfl
  | cons a t ih =>
    simp only [List.map_cons, deepDiveItem_base, ih]

lemma filter_orderedInsert (s : Int) (x : EnrichedItem) :
    ∀ l : List EnrichedItem,
      (List.orderedInsert bySevDesc x l).filter (fun i => i.severity == s) =
        if x.severity = s then
          x :: l.filter (fun i => i.severity == s)
        else l.filter (fun i => i.severity == s) := by
  intro l
  induction l with
  | nil =>
    by_cases hx : x.severity = s <;>
      simp [List.orderedInsert, List.filter_cons, hx]
  | cons y ys ih =>
    by_cases hr : bySevDesc x y
    · rw [List.orderedInsert, if_pos hr]
      by_cases hx : x.severity = s <;>
        simp [List.filter_cons, hx]
    · rw [List.orderedInsert, if_neg hr]
      by_cases hx : x.severity = s
      · have hy : ¬ y.severity = s := by
          intro hys
          exact hr (le_of_eq (hx ▸ hys))
        simp [List.filter_cons, hy, ih, hx]
      · by_cases hy : y.severity = s <;>
          simp [List.filter_cons, hy, ih, hx]

lemma filter_insertionSort (s : Int) :
    ∀ l : List EnrichedItem,
      (List.insertionSort bySevDesc l).filter (fun i => i.severity == s) =
        l.filter (fun i => i.severity == s) := by
  intro l
  induction l with
  | nil => rfl
  | cons a t ih =>
    rw [List.insertionSort, filter_orderedInsert, ih]
    by_cases ha : a.severity = s <;> simp [List.filter_cons, ha]

lemma mem_deep_dive_candidates (minSev cap : Int) (items : List EnrichedItem)
    (i : EnrichedItem) (hi : i ∈ deep_dive_candidates minSev cap items) :
    i ∈ items := by
  unfold deep_dive_candidates at hi
  have h1 : i ∈ List.insertionSort bySevDesc
      (items.filter (fun i => decide (minSev ≤ i.severity))) :=
    List.mem_of_mem_take hi
  have h2 := (List.perm_insertionSort bySevDesc _).mem_iff.mp h1
  exact List.mem_of_mem_filter h2

lemma url_mem_candidateUrls_iff (minSev cap : Int) (items : List EnrichedItem)
    (hnd : (items.map (fun i => i.item.url)).Nodup)
    (i : EnrichedItem) (hi : i ∈ items) :
    i.item.url ∈ candidateUrls minSev cap items ↔
      i ∈ deep_dive_candidates minSev cap items := by
  constructor
  · intro hurl
    obtain ⟨j, hj, hje⟩ := List.mem_map.mp hurl
    have hjitems := mem_deep_dive_candidates minSev cap items j hj
    have hji : j = i := List.inj_on_of_nodup_map hnd hjitems hi hje
    exact hji ▸ hj
  · intro hc
    exact List.mem_map_of_mem (fun i => i.item.url) hc

lemma mem_treated_iff (minSev cap : Int) (items : List EnrichedItem)
    (hnd : (items.map (fun i => i.item.url)).Nodup) (i : EnrichedItem) :
    i ∈ deep_dive_treated minSev cap items ↔
      i ∈ deep_dive_candidates minSev cap items := by
  unfold deep_dive_treated
  rw [List.mem_filter]
  constructor
  · rintro ⟨hmem, hurl⟩
    rw [decide_eq_true_eq] at hurl
    exact (url_mem_candidateUrls_iff minSev cap items hnd i hmem).mp hurl
  · intro hc
    have hi := mem_deep_dive_candidates minSev cap items i hc
    refine ⟨hi, ?_⟩
    rw [decide_eq_true_eq]
    exact (url_mem_candidateUrls_iff minSev cap items hnd i hi).mpr hc

/-! ## Claim theorems -/

/-- **C7.** The notifiable set computed by the cycle contains exactly the
items with `severity >= SEVERITY_THRESHOLD`; the configured threshold is
clamped to be at least 1, so a severity-0 item is never notifiable under any
threshold configuration. -/
theorem notifiable_set_correct (env : Option Int) (enriched : List EnrichedItem)
    (i : EnrichedItem) :
    (i ∈ to_notify (SEVERITY_THRESHOLD env) enriched ↔
      i ∈ enriched ∧ SEVERITY_THRESHOLD env ≤ i.severity) ∧
    1 ≤ SEVERITY_THRESHOLD env ∧
    (i.severity = 0 → i ∉ to_notify (SEVERITY_THRESHOLD env) enriched) := by
  have hθ : 1 ≤ SEVERITY_THRESHOLD env := by
    unfold SEVERITY_THRESHOLD clampCfg
    split_ifs <;> omega
  refine ⟨?_, hθ, ?_⟩
  · simp [to_notify, List.mem_filter]
  · intro h0 hmem
    have h := (List.mem_filter.mp hmem).2
    rw [decide_eq_true_eq] at h
    omega

/-- Witness for C7 with the default environment, a severity-7 item and a
severity-0 item. -/
theorem notifiable_set_correct_witness :
    (EnrichedItem.mk (RawItem.mk "a" "" "" "" "" "") "" 7 [] ∈
        to_notify (SEVERITY_THRESHOLD none)
          [EnrichedItem.mk (RawItem.mk "a" "" "" "" "" "") "" 7 []] ↔
      EnrichedItem.mk (RawItem.mk "a" "" "" "" "" "") "" 7 [] ∈
          [EnrichedItem.mk (RawItem.mk "a" "" "" "" "" "") "" 7 []] ∧
        SEVERITY_THRESHOLD none ≤ 7) ∧
    1 ≤ SEVERITY_THRESHOLD none ∧
    ((7 : Int) = 0 →
      EnrichedItem.mk (RawItem.mk "a" "" "" "" "" "") "" 7 [] ∉
        to_notify (SEVERITY_THRESHOLD none)
          [EnrichedItem.mk (RawItem.mk "a" "" "" "" "" "") "" 7 []]) :=
  notifiable_set_correct none
    [EnrichedItem.mk (RawItem.mk "a" "" "" "" "" "") "" 7 []]
    (EnrichedItem.mk (RawItem.mk "a" "" "" "" "" "") "" 7 [])

/-- **C3.** Items whose enrichment failed internally (LLM call error or
JSON parse error, with the batch actually processed, i.e. the budget was
still open up to it) are each returned exactly once, carrying
`severity = 0`, `summary = ""`, `topics = []` — never silently dropped. -/
theorem enrich_failed_items_surfaced (budget : Nat → Bool)
    (outcome : Nat → BatchOutcome) (items : List RawItem) (b : Nat)
    (hbudget : ∀ k, k ≤ b → budget k = true)
    (hfail : outcome b = .apiError ∨ outcome b = .parseError) :
    (∃ pre post, enrich budget outcome items =
        pre ++ ((chunksOf BATCH_SIZE items).getD b []).map failEnrich ++ post) ∧
    ((items.map RawItem.id).Nodup →
      ∀ i ∈ (chunksOf BATCH_SIZE items).getD b [],
        (enrich budget outcome items).filter (fun e => e.item.id == i.id) =
          [EnrichedItem.mk i "" 0 []]) := by
  by_cases hlen : b < (chunksOf BATCH_SIZE items).length
  · have hbudget0 : ∀ k, k ≤ b → budget (0 + k) = true := by
      intro k hk; rw [Nat.zero_add]; exact hbudget k hk
    have hfail0 : outcome (0 + b) = .apiError ∨ outcome (0 + b) = .parseError := by
      rwa [Nat.zero_add]
    constructor
    · rw [enrich_eq]
      exact enrichGo_failed_parts budget outcome b (chunksOf BATCH_SIZE items) 0
        hbudget0 hfail0 hlen
    · intro hnd i hi
      have hnd' : (((chunksOf BATCH_SIZE items).flatten).map RawItem.id).Nodup := by
        rwa [chunksOf_flatten BATCH_SIZE (by decide) items]
      rw [enrich_eq]
      exact enrichGo_filter_failed budget outcome b (chunksOf BATCH_SIZE items) 0
        hnd' hbudget0 hfail0 hlen i hi
  · have hnil : (chunksOf BATCH_SIZE items).getD b [] = [] := by
      rw [List.getD_eq_getElem?_getD, List.getElem?_eq_none (by omega)]
      rfl
    rw [hnil]
    refine ⟨⟨enrich budget outcome items, [], by simp⟩, ?_⟩
    intro _ i hi
    exact absurd hi (List.not_mem_nil i)

/-- Witness for C3: a two-item input whose only batch hits an API error. -/
theorem enrich_failed_items_surfaced_witness :
    ((∀ k, k ≤ 0 → (fun _ : Nat => true) k = true) ∧
      ((fun _ : Nat => BatchOutcome.apiError) 0 = .apiError ∨
        (fun _ : Nat => BatchOutcome.apiError) 0 = .parseError)) ∧
    ((∃ pre post,
        enrich (fun _ => true) (fun _ => .apiError)
          [RawItem.mk "a" "" "" "" "" "", RawItem.mk "b" "" "" "" "" ""] =
          pre ++ ((chunksOf BATCH_SIZE
              [RawItem.mk "a" "" "" "" "" "", RawItem.mk "b" "" "" "" "" ""]).getD 0
                []).map failEnrich ++ post) ∧
      (([RawItem.mk "a" "" "" "" "" "", RawItem.mk "b" "" "" "" "" ""].map
          RawItem.id).Nodup →
        ∀ i ∈ (chunksOf BATCH_SIZE
            [RawItem.mk "a" "" "" "" "" "", RawItem.mk "b" "" "" "" "" ""]).getD 0 [],
          (enrich (fun _ => true) (fun _ => .apiError)
            [RawItem.mk "a" "" "" "" "" "", RawItem.mk "b" "" "" "" "" ""]).filter
              (fun e => e.item.id == i.id) = [EnrichedItem.mk i "" 0 []])) :=
  ⟨⟨fun _ _ => rfl, Or.inl rfl⟩,
    enrich_failed_items_surfaced (fun _ => true) (fun _ => .apiError)
      [RawItem.mk "a" "" "" "" "" "", RawItem.mk "b" "" "" "" "" ""] 0
      (fun _ _ => rfl) (Or.inl rfl)⟩

/-- **C8.** `filter_new` partitions any batch against the seen-set: an item
whose fingerprint was previously recorded by some `mark_seen` call is
excluded, an item whose fingerprint was never recorded is included, and the
result is exactly the unseen members of the input. -/
theorem filter_new_partitions (fp : String → String) (history : List (List RawItem))
    (batch : List RawItem) :
    (∀ i ∈ batch, (∃ m ∈ history.flatten, fp m.id = fp i.id) →
        i ∉ filter_new fp (seenAfter fp history) batch) ∧
    (∀ i ∈ batch, (∀ m ∈ history.flatten, fp m.id ≠ fp i.id) →
        i ∈ filter_new fp (seenAfter fp history) batch) ∧
    filter_new fp (seenAfter fp history) batch =
      batch.filter (fun i => fp i.id ∉ seenAfter fp history) := by
  refine ⟨?_, ?_, rfl⟩
  · intro i _ ⟨m, hm, he⟩ hmem
    have := List.of_mem_filter hmem
    simp only [decide_not, Bool.not_eq_true', decide_eq_false_iff_not] at this
    exact this ((mem_seenAfter fp history (fp i.id)).mpr ⟨m, hm, he⟩)
  · intro i hi hnone
    refine List.mem_filter.mpr ⟨hi, ?_⟩
    simp only [decide_not, Bool.not_eq_false', decide_eq_true_eq, Bool.not_eq_true',
      decide_eq_false_iff_not]
    intro hmem
    obtain ⟨m, hm, he⟩ := (mem_seenAfter fp history (fp i.id)).mp hmem
    exact hnone m hm he

/-- Witness for C8 at a concrete one-batch history and a mixed batch. -/
theorem filter_new_partitions_witness :
    (∀ i ∈ [RawItem.mk "a" "" "" "" "" "", RawItem.mk "b" "" "" "" "" ""],
      (∃ m ∈ [[RawItem.mk "a" "" "" "" "" ""]].flatten, id m.id = id i.id) →
        i ∉ filter_new id (seenAfter id [[RawItem.mk "a" "" "" "" "" ""]])
          [RawItem.mk "a" "" "" "" "" "", RawItem.mk "b" "" "" "" "" ""]) ∧
    (∀ i ∈ [RawItem.mk "a" "" "" "" "" "", RawItem.mk "b" "" "" "" "" ""],
      (∀ m ∈ [[RawItem.mk "a" "" "" "" "" ""]].flatten, id m.id ≠ id i.id) →
        i ∈ filter_new id (seenAfter id [[RawItem.mk "a" "" "" "" "" ""]])
          [RawItem.mk "a" "" "" "" "" "", RawItem.mk "b" "" "" "" "" ""]) ∧
    filter_new id (seenAfter id [[RawItem.mk "a" "" "" "" "" ""]])
        [RawItem.mk "a" "" "" "" "" "", RawItem.mk "b" "" "" "" "" ""] =
      [RawItem.mk "a" "" "" "" "" "", RawItem.mk "b" "" "" "" "" ""].filter
        (fun i => id i.id ∉ seenAfter id [[RawItem.mk "a" "" "" "" "" ""]]) :=
  filter_new_partitions id [[RawItem.mk "a" "" "" "" "" ""]]
    [RawItem.mk "a" "" "" "" "" "", RawItem.mk "b" "" "" "" "" ""]

/-- **C9.** `mark_seen` is idempotent: marking the same items twice leaves the
seen-set as after one call, and inserting an already-present fingerprint is a
no-op. -/
theorem mark_seen_idempotent (fp : String → String) (seen : Finset String)
    (items : List RawItem) (x : RawItem) :
    mark_seen fp (mark_seen fp seen items) items = mark_seen fp seen items ∧
    (fp x.id ∈ seen → mark_seen fp seen [x] = seen) := by
  constructor
  · simp [mark_seen, Finset.union_assoc]
  · intro hx
    simp only [mark_seen, List.map_cons, List.map_nil, List.toFinset_cons,
      List.toFinset_nil, insert_emptyc_eq]
    exact Finset.union_eq_left.mpr (Finset.singleton_subset_iff.mpr hx)

/-- Witness for C9 at a concrete store and item. -/
theorem mark_seen_idempotent_witness :
    mark_seen id (mark_seen id {"a"} [RawItem.mk "b" "" "" "" "" ""])
        [RawItem.mk "b" "" "" "" "" ""] =
      mark_seen id {"a"} [RawItem.mk "b" "" "" "" "" ""] ∧
    (id (RawItem.mk "a" "" "" "" "" "").id ∈ ({"a"} : Finset String) →
      mark_seen id {"a"} [RawItem.mk "a" "" "" "" "" ""] = {"a"}) :=
  mark_seen_idempotent id {"a"} [RawItem.mk "b" "" "" "" "" ""]
    (RawItem.mk "a" "" "" "" "" "")

/-- **C2 (counterexample).** With two notifiable items sharing one URL
(severities 9 and 5, floor 8, cap 3), the items `deep_dive` sends down the
candidate path are NOT exactly the filter-sort-take selection: the severity-5
item is treated as a candidate although it is not selected. -/
theorem deep_dive_selection_counterexample :
    deep_dive_treated 8 3
        [EnrichedItem.mk (RawItem.mk "u" "t1" "u" "" "" "") "" 9 [],
         EnrichedItem.mk (RawItem.mk "u" "t2" "u" "" "" "") "" 5 []] ≠
      deep_dive_candidates 8 3
        [EnrichedItem.mk (RawItem.mk "u" "t1" "u" "" "" "") "" 9 [],
         EnrichedItem.mk (RawItem.mk "u" "t2" "u" "" "" "") "" 5 []] ∧
    EnrichedItem.mk (RawItem.mk "u" "t2" "u" "" "" "") "" 5 [] ∈
      deep_dive_treated 8 3
        [EnrichedItem.mk (RawItem.mk "u" "t1" "u" "" "" "") "" 9 [],
         EnrichedItem.mk (RawItem.mk "u" "t2" "u" "" "" "") "" 5 []] ∧
    EnrichedItem.mk (RawItem.mk "u" "t2" "u" "" "" "") "" 5 [] ∉
      deep_dive_candidates 8 3
        [EnrichedItem.mk (RawItem.mk "u" "t1" "u" "" "" "") "" 9 [],
         EnrichedItem.mk (RawItem.mk "u" "t2" "u" "" "" "") "" 5 []] := by
  refine ⟨?_, ?_, ?_⟩ <;> decide

/-- **C2 (amended).** Provided the input items' URLs are pairwise distinct,
the set of items `deep_dive` treats as candidates is exactly the result of
keeping items with `severity >= DEEP_DIVE_MIN_SEVERITY`, sorting them
descending by severity stably, and taking the first
`DEEP_DIVE_MAX_PER_CYCLE`; the candidate count is `min(filtered, cap)`; and
the sort is a permutation, sorted descending, with ties keeping the original
relative order (equal-severity subsequences are preserved). -/
theorem deep_dive_selection_correct (minSev cap : Int) (items : List EnrichedItem)
    (hnd : (items.map (fun i => i.item.url)).Nodup) :
    (∀ i, i ∈ deep_dive_treated minSev cap items ↔
      i ∈ deep_dive_candidates minSev cap items) ∧
    (deep_dive_candidates minSev cap items).length =
      min ((items.filter (fun i => decide (minSev ≤ i.severity))).length) cap.toNat ∧
    List.Perm
      (List.insertionSort bySevDesc (items.filter (fun i => decide (minSev ≤ i.severity))))
      (items.filter (fun i => decide (minSev ≤ i.severity))) ∧
    (List.insertionSort bySevDesc
      (items.filter (fun i => decide (minSev ≤ i.severity)))).Sorted bySevDesc ∧
    (∀ s : Int,
      (List.insertionSort bySevDesc
        (items.filter (fun i => decide (minSev ≤ i.severity)))).filter
          (fun i => i.severity == s) =
        (items.filter (fun i => decide (minSev ≤ i.severity))).filter
          (fun i => i.severity == s)) := by
  refine ⟨mem_treated_iff minSev cap items hnd, ?_, List.perm_insertionSort _ _,
    List.sorted_insertionSort _ _, fun s => filter_insertionSort s _⟩
  unfold deep_dive_candidates
  rw [List.length_take, (List.perm_insertionSort bySevDesc _).length_eq]
  exact Nat.min_comm _ _

/-- Witness for C2 (amended) at two distinct-URL items. -/
theorem deep_dive_selection_correct_witness :
    (([EnrichedItem.mk (RawItem.mk "u1" "" "u1" "" "" "") "" 9 [],
       EnrichedItem.mk (RawItem.mk "u2" "" "u2" "" "" "") "" 5 []].map
        (fun i => i.item.url)).Nodup) ∧
    ((∀ i, i ∈ deep_dive_treated 8 3
        [EnrichedItem.mk (RawItem.mk "u1" "" "u1" "" "" "") "" 9 [],
         EnrichedItem.mk (RawItem.mk "u2" "" "u2" "" "" "") "" 5 []] ↔
      i ∈ deep_dive_candidates 8 3
        [EnrichedItem.mk (RawItem.mk "u1" "" "u1" "" "" "") "" 9 [],
         EnrichedItem.mk (RawItem.mk "u2" "" "u2" "" "" "") "" 5 []]) ∧
    (deep_dive_candidates 8 3
        [EnrichedItem.mk (RawItem.mk "u1" "" "u1" "" "" "") "" 9 [],
         EnrichedItem.mk (RawItem.mk "u2" "" "u2" "" "" "") "" 5 []]).length =
      min (([EnrichedItem.mk (RawItem.mk "u1" "" "u1" "" "" "") "" 9 [],
             EnrichedItem.mk (RawItem.mk "u2" "" "u2" "" "" "") "" 5 []].filter
        (fun i => decide ((8 : Int) ≤ i.severity))).length) (3 : Int).toNat ∧
    List.Perm
      (List.insertionSort bySevDesc
        ([EnrichedItem.mk (RawItem.mk "u1" "" "u1" "" "" "") "" 9 [],
          EnrichedItem.mk (RawItem.mk "u2" "" "u2" "" "" "") "" 5 []].filter
          (fun i => decide ((8 : Int) ≤ i.severity))))
      ([EnrichedItem.mk (RawItem.mk "u1" "" "u1" "" "" "") "" 9 [],
        EnrichedItem.mk (RawItem.mk "u2" "" "u2" "" "" "") "" 5 []].filter
        (fun i => decide ((8 : Int) ≤ i.severity))) ∧
    (List.insertionSort bySevDesc
      ([EnrichedItem.mk (RawItem.mk "u1" "" "u1" "" "" "") "" 9 [],
        EnrichedItem.mk (RawItem.mk "u2" "" "u2" "" "" "") "" 5 []].filter
        (fun i => decide ((8 : Int) ≤ i.severity)))).Sorted bySevDesc ∧
    (∀ s : Int,
      (List.insertionSort bySevDesc
        ([EnrichedItem.mk (RawItem.mk "u1" "" "u1" "" "" "") "" 9 [],
          EnrichedItem.mk (RawItem.mk "u2" "" "u2" "" "" "") "" 5 []].filter
          (fun i => decide ((8 : Int) ≤ i.severity)))).filter
          (fun i => i.severity == s) =
        ([EnrichedItem.mk (RawItem.mk "u1" "" "u1" "" "" "") "" 9 [],
          EnrichedItem.mk (RawItem.mk "u2" "" "u2" "" "" "") "" 5 []].filter
          (fun i => decide ((8 : Int) ≤ i.severity))).filter
          (fun i => i.severity == s))) :=
  ⟨by decide,
    deep_dive_selection_correct 8 3
      [EnrichedItem.mk (RawItem.mk "u1" "" "u1" "" "" "") "" 9 [],
       EnrichedItem.mk (RawItem.mk "u2" "" "u2" "" "" "") "" 5 []] (by decide)⟩

/-- **C4 (counterexample).** With two items sharing one URL (severities 9
and 5, floor 8, cap 3) and a succeeding fetch and analysis, the severity-5
item — which is not a selected candidate — does NOT pass through unchanged:
it comes back merged with `deep_dive = true`. -/
theorem deep_dive_passthrough_counterexample :
    deep_dive 8 3 (fun _ => some "text")
        (fun _ _ => some (DeepAnalysis.mk "s" [] [] [] "" []))
        [EnrichedItem.mk (RawItem.mk "u" "t1" "u" "" "" "") "" 9 [],
         EnrichedItem.mk (RawItem.mk "u" "t2" "u" "" "" "") "" 5 []] =
      [DivedItem.mk (EnrichedItem.mk (RawItem.mk "u" "t1" "u" "" "" "") "" 9 [])
        (some (DeepAnalysis.mk "s" [] [] [] "" [])),
       DivedItem.mk (EnrichedItem.mk (RawItem.mk "u" "t2" "u" "" "" "") "" 5 [])
        (some (DeepAnalysis.mk "s" [] [] [] "" []))] ∧
    EnrichedItem.mk (RawItem.mk "u" "t2" "u" "" "" "") "" 5 [] ∉
      deep_dive_candidates 8 3
        [EnrichedItem.mk (RawItem.mk "u" "t1" "u" "" "" "") "" 9 [],
         EnrichedItem.mk (RawItem.mk "u" "t2" "u" "" "" "") "" 5 []] := by
  refine ⟨?_, ?_⟩ <;> decide

/-- **C4 (amended).** The output of `deep_dive` always has the same length
and order as its input (position `k` of the output wraps position `k` of the
input).  Provided the input items' URLs are pairwise distinct: an item not
selected as a candidate passes through unchanged; a selected item whose
fetch fails, returns empty content, or whose analysis fails is returned
unchanged; and only selected candidates may carry the deep-dive merge. -/
theorem deep_dive_passthrough (minSev cap : Int) (fetch : String → Option String)
    (analyze : EnrichedItem → String → Option DeepAnalysis)
    (items : List EnrichedItem) :
    (deep_dive minSev cap fetch analyze items).map DivedItem.base = items ∧
    ((items.map (fun i => i.item.url)).Nodup →
      ∀ k (hk : k < items.length)
        (hk2 : k < (deep_dive minSev cap fetch analyze items).length),
      (items.get ⟨k, hk⟩ ∉ deep_dive_candidates minSev cap items →
        (deep_dive minSev cap fetch analyze items).get ⟨k, hk2⟩ =
          ⟨items.get ⟨k, hk⟩, none⟩) ∧
      (items.get ⟨k, hk⟩ ∈ deep_dive_candidates minSev cap items →
        (fetch (items.get ⟨k, hk⟩).item.url = none ∨
          fetch (items.get ⟨k, hk⟩).item.url = some "" ∨
          ∀ c, fetch (items.get ⟨k, hk⟩).item.url = some c →
            analyze (items.get ⟨k, hk⟩) c = none) →
        (deep_dive minSev cap fetch analyze items).get ⟨k, hk2⟩ =
          ⟨items.get ⟨k, hk⟩, none⟩) ∧
      (((deep_dive minSev cap fetch analyze items).get ⟨k, hk2⟩).deep.isSome = true →
        items.get ⟨k, hk⟩ ∈ deep_dive_candidates minSev cap items)) := by
  constructor
  · exact map_deepDiveItem_base minSev cap fetch analyze items items
  · intro hnd k hk hk2
    have hout : (deep_dive minSev cap fetch analyze items).get ⟨k, hk2⟩ =
        deepDiveItem minSev cap fetch analyze items (items.get ⟨k, hk⟩) := by
      simp [deep_dive, List.get_eq_getElem, List.getElem_map]
    have hxmem : items.get ⟨k, hk⟩ ∈ items := items.get_mem k hk
    rw [hout]
    refine ⟨?_, ?_, ?_⟩
    · intro hnc
      have hurl : (items.get ⟨k, hk⟩).item.url ∉ candidateUrls minSev cap items := by
        intro hurl
        exact hnc ((url_mem_candidateUrls_iff minSev cap items hnd _ hxmem).mp hurl)
      unfold deepDiveItem
      rw [if_neg hurl]
    · intro hc hfail
      have hurl : (items.get ⟨k, hk⟩).item.url ∈ candidateUrls minSev cap items :=
        (url_mem_candidateUrls_iff minSev cap items hnd _ hxmem).mpr hc
      unfold deepDiveItem
      rw [if_pos hurl]
      rcases hfail with hf | hf | hf
      · rw [hf]
      · rw [hf]
        dsimp only
        rw [if_pos rfl]
      · cases hfc : fetch (items.get ⟨k, hk⟩).item.url with
        | none => rfl
        | some c =>
          dsimp only
          by_cases hce : c = ""
          · rw [if_pos hce]
          · rw [if_neg hce, hf c hfc]
    · intro hsome
      by_contra hnc
      have hurl : (items.get ⟨k, hk⟩).item.url ∉ candidateUrls minSev cap items := by
        intro hurl
        exact hnc ((url_mem_candidateUrls_iff minSev cap items hnd _ hxmem).mp hurl)
      unfold deepDiveItem at hsome
      rw [if_neg hurl] at hsome
      simp at hsome

/-- Witness for C4 (amended): two distinct-URL items where the candidate's
fetch fails. -/
theorem deep_dive_passthrough_witness :
    (([EnrichedItem.mk (RawItem.mk "u1" "" "u1" "" "" "") "" 9 [],
       EnrichedItem.mk (RawItem.mk "u2" "" "u2" "" "" "") "" 5 []].map
        (fun i => i.item.url)).Nodup) ∧
    ((deep_dive 8 3 (fun _ => none) (fun _ _ => none)
        [EnrichedItem.mk (RawItem.mk "u1" "" "u1" "" "" "") "" 9 [],
         EnrichedItem.mk (RawItem.mk "u2" "" "u2" "" "" "") "" 5 []]).map
        DivedItem.base =
      [EnrichedItem.mk (RawItem.mk "u1" "" "u1" "" "" "") "" 9 [],
       EnrichedItem.mk (RawItem.mk "u2" "" "u2" "" "" "") "" 5 []] ∧
    (∀ k (hk : k < ([EnrichedItem.mk (RawItem.mk "u1" "" "u1" "" "" "") "" 9 [],
         EnrichedItem.mk (RawItem.mk "u2" "" "u2" "" "" "") "" 5 []] :
           List EnrichedItem).length)
        (hk2 : k < (deep_dive 8 3 (fun _ => none) (fun _ _ => none)
          [EnrichedItem.mk (RawItem.mk "u1" "" "u1" "" "" "") "" 9 [],
           EnrichedItem.mk (RawItem.mk "u2" "" "u2" "" "" "") "" 5 []]).length),
      (([EnrichedItem.mk (RawItem.mk "u1" "" "u1" "" "" "") "" 9 [],
         EnrichedItem.mk (RawItem.mk "u2" "" "u2" "" "" "") "" 5 []] :
           List EnrichedItem).get ⟨k, hk⟩ ∉
          deep_dive_candidates 8 3
            [EnrichedItem.mk (RawItem.mk "u1" "" "u1" "" "" "") "" 9 [],
             EnrichedItem.mk (RawItem.mk "u2" "" "u2" "" "" "") "" 5 []] →
        (deep_dive 8 3 (fun _ => none) (fun _ _ => none)
          [EnrichedItem.mk (RawItem.mk "u1" "" "u1" "" "" "") "" 9 [],
           EnrichedItem.mk (RawItem.mk "u2" "" "u2" "" "" "") "" 5 []]).get ⟨k, hk2⟩ =
          ⟨([EnrichedItem.mk (RawItem.mk "u1" "" "u1" "" "" "") "" 9 [],
             EnrichedItem.mk (RawItem.mk "u2" "" "u2" "" "" "") "" 5 []] :
               List EnrichedItem).get ⟨k, hk⟩, none⟩) ∧
      (([EnrichedItem.mk (RawItem.mk "u1" "" "u1" "" "" "") "" 9 [],
         EnrichedItem.mk (RawItem.mk "u2" "" "u2" "" "" "") "" 5 []] :
           List EnrichedItem).get ⟨k, hk⟩ ∈
          deep_dive_candidates 8 3
            [EnrichedItem.mk (RawItem.mk "u1" "" "u1" "" "" "") "" 9 [],
             EnrichedItem.mk (RawItem.mk "u2" "" "u2" "" "" "") "" 5 []] →
        ((fun _ : String => (none : Option String))
            (([EnrichedItem.mk (RawItem.mk "u1" "" "u1" "" "" "") "" 9 [],
               EnrichedItem.mk (RawItem.mk "u2" "" "u2" "" "" "") "" 5 []] :
                 List EnrichedItem).get ⟨k, hk⟩).item.url = none ∨
          (fun _ : String => (none : Option String))
            (([EnrichedItem.mk (RawItem.mk "u1" "" "u1" "" "" "") "" 9 [],
               EnrichedItem.mk (RawItem.mk "u2" "" "u2" "" "" "") "" 5 []] :
                 List EnrichedItem).get ⟨k, hk⟩).item.url = some "" ∨
          ∀ c, (fun _ : String => (none : Option String))
              (([EnrichedItem.mk (RawItem.mk "u1" "" "u1" "" "" "") "" 9 [],
                 EnrichedItem.mk (RawItem.mk "u2" "" "u2" "" "" "") "" 5 []] :
                   List EnrichedItem).get ⟨k, hk⟩).item.url = some c →
            (fun (_ : EnrichedItem) (_ : String) => (none : Option DeepAnalysis))
              (([EnrichedItem.mk (RawItem.mk "u1" "" "u1" "" "" "") "" 9 [],
                 EnrichedItem.mk (RawItem.mk "u2" "" "u2" "" "" "") "" 5 []] :
                   List EnrichedItem).get ⟨k, hk⟩) c = none) →
        (deep_dive 8 3 (fun _ => none) (fun _ _ => none)
          [EnrichedItem.mk (RawItem.mk "u1" "" "u1" "" "" "") "" 9 [],
           EnrichedItem.mk (RawItem.mk "u2" "" "u2" "" "" "") "" 5 []]).get ⟨k, hk2⟩ =
          ⟨([EnrichedItem.mk (RawItem.mk "u1" "" "u1" "" "" "") "" 9 [],
             EnrichedItem.mk (RawItem.mk "u2" "" "u2" "" "" "") "" 5 []] :
               List EnrichedItem).get ⟨k, hk⟩, none⟩) ∧
      (((deep_dive 8 3 (fun _ => none) (fun _ _ => none)
          [EnrichedItem.mk (RawItem.mk "u1" "" "u1" "" "" "") "" 9 [],
           EnrichedItem.mk (RawItem.mk "u2" "" "u2" "" "" "") "" 5 []]).get
            ⟨k, hk2⟩).deep.isSome = true →
        ([EnrichedItem.mk (RawItem.mk "u1" "" "u1" "" "" "") "" 9 [],
          EnrichedItem.mk (RawItem.mk "u2" "" "u2" "" "" "") "" 5 []] :
            List EnrichedItem).get ⟨k, hk⟩ ∈
          deep_dive_candidates 8 3
            [EnrichedItem.mk (RawItem.mk "u1" "" "u1" "" "" "") "" 9 [],
             EnrichedItem.mk (RawItem.mk "u2" "" "u2" "" "" "") "" 5 []]))) :=
  ⟨by decide,
    (deep_dive_passthrough 8 3 (fun _ => none) (fun _ _ => none)
      [EnrichedItem.mk (RawItem.mk "u1" "" "u1" "" "" "") "" 9 [],
       EnrichedItem.mk (RawItem.mk "u2" "" "u2" "" "" "") "" 5 []]).1,
    (deep_dive_passthrough 8 3 (fun _ => none) (fun _ _ => none)
      [EnrichedItem.mk (RawItem.mk "u1" "" "u1" "" "" "") "" 9 [],
       EnrichedItem.mk (RawItem.mk "u2" "" "u2" "" "" "") "" 5 []]).2 (by decide)⟩

lemma deep_dive_filter_length (minSev cap : Int) (fetch : String → Option String)
    (analyze : EnrichedItem → String → Option DeepAnalysis)
    (l : List EnrichedItem) (floor : Int) :
    ((deep_dive minSev cap fetch analyze l).filter
        (fun d => decide (floor ≤ d.base.severity))).length =
      (l.filter (fun i => decide (floor ≤ i.severity))).length := by
  have hcomp : ((fun d : DivedItem => decide (floor ≤ d.base.severity)) ∘
      deepDiveItem minSev cap fetch analyze l) =
      (fun i : EnrichedItem => decide (floor ≤ i.severity)) := by
    funext i
    simp [Function.comp, deepDiveItem_base]
  rw [deep_dive, List.filter_map, List.length_map, hcomp]

/-- **C5.** `run_cycle`'s return contract: 0 when nothing survives the
fingerprint filter (for every enrichment oracle, i.e. without consulting
enrichment); 0 when no enriched item meets `SEVERITY_THRESHOLD`; otherwise
the count of notifiable items with `severity >= SPIKE_SEVERITY_MIN`.  For 3
new relevant items with severities `[9, 5, 3]`, threshold 6 and spike floor
8, the notifiable set is exactly the severity-9 item and the result is 1. -/
theorem run_cycle_contract (cfg : CycleConfig) (fp : String → String)
    (budget : Nat → Bool) (outcome : Nat → BatchOutcome)
    (fetch : String → Option String)
    (analyze : EnrichedItem → String → Option DeepAnalysis)
    (seen : Finset String) (raw : List RawItem) :
    (filter_new fp seen raw = [] →
      run_cycle cfg fp budget outcome fetch analyze seen raw = (0, seen)) ∧
    (to_notify cfg.severityThreshold
        (enrich budget outcome (filter_new fp seen raw)) = [] →
      (run_cycle cfg fp budget outcome fetch analyze seen raw).1 = 0) ∧
    ((run_cycle cfg fp budget outcome fetch analyze seen raw).1 =
      ((to_notify cfg.severityThreshold
          (enrich budget outcome (filter_new fp seen raw))).filter
        (fun i => decide (cfg.spikeSeverityMin ≤ i.severity))).length) ∧
    ((run_cycle ⟨6, 8, 3, 8⟩ id (fun _ => true)
        (fun _ => .ok [TriageResult.mk (some true) (some 9) "" (some []),
                       TriageResult.mk (some true) (some 5) "" (some []),
                       TriageResult.mk (some true) (some 3) "" (some [])])
        (fun _ => none) (fun _ _ => none) ∅
        [RawItem.mk "a" "" "ua" "" "" "", RawItem.mk "b" "" "ub" "" "" "",
         RawItem.mk "c" "" "uc" "" "" ""]).1 = 1 ∧
      to_notify 6 (enrich (fun _ => true)
        (fun _ => .ok [TriageResult.mk (some true) (some 9) "" (some []),
                       TriageResult.mk (some true) (some 5) "" (some []),
                       TriageResult.mk (some true) (some 3) "" (some [])])
        [RawItem.mk "a" "" "ua" "" "" "", RawItem.mk "b" "" "ub" "" "" "",
         RawItem.mk "c" "" "uc" "" "" ""]) =
        [EnrichedItem.mk (RawItem.mk "a" "" "ua" "" "" "") "" 9 []]) := by
  refine ⟨?_, ?_, ?_, by decide, by decide⟩
  · intro hnil
    have hempty : (filter_new fp seen raw).isEmpty = true := by
      rw [hnil]; rfl
    simp [run_cycle, hempty]
  · intro hnil
    by_cases hnew : (filter_new fp seen raw).isEmpty
    · simp [run_cycle, hnew]
    · have hnil' : (to_notify cfg.severityThreshold
          (enrich budget outcome (filter_new fp seen raw))).isEmpty = true := by
        rw [hnil]; rfl
      simp [run_cycle, hnew, hnil']
  · by_cases hnew : (filter_new fp seen raw).isEmpty
    · have hnil : filter_new fp seen raw = [] := by
        cases h : filter_new fp seen raw with
        | nil => rfl
        | cons a t => rw [h] at hnew; simp at hnew
      rw [hnil]
      simp [run_cycle, hnil, enrich, to_notify]
    · by_cases hton : (to_notify cfg.severityThreshold
          (enrich budget outcome (filter_new fp seen raw))).isEmpty
      · have hnil : to_notify cfg.severityThreshold
            (enrich budget outcome (filter_new fp seen raw)) = [] := by
          cases h : to_notify cfg.severityThreshold
              (enrich budget outcome (filter_new fp seen raw)) with
          | nil => rfl
          | cons a t => rw [h] at hton; simp at hton
        simp [run_cycle, hnew, hton, hnil]
      · simp only [run_cycle, hnew, hton, if_false, Bool.false_eq_true]
        rw [deep_dive_filter_length]

/-- Witness for C5 with one already-new item below every floor. -/
theorem run_cycle_contract_witness :
    ((filter_new id ∅ [RawItem.mk "a" "" "ua" "" "" ""] = [] →
      run_cycle ⟨6, 8, 3, 8⟩ id (fun _ => true) (fun _ => .parseError)
        (fun _ => none) (fun _ _ => none) ∅ [RawItem.mk "a" "" "ua" "" "" ""] =
        (0, ∅)) ∧
    (to_notify (6 : Int)
        (enrich (fun _ => true) (fun _ => .parseError)
          (filter_new id ∅ [RawItem.mk "a" "" "ua" "" "" ""])) = [] →
      (run_cycle ⟨6, 8, 3, 8⟩ id (fun _ => true) (fun _ => .parseError)
        (fun _ => none) (fun _ _ => none) ∅
        [RawItem.mk "a" "" "ua" "" "" ""]).1 = 0) ∧
    ((run_cycle ⟨6, 8, 3, 8⟩ id (fun _ => true) (fun _ => .parseError)
        (fun _ => none) (fun _ _ => none) ∅
        [RawItem.mk "a" "" "ua" "" "" ""]).1 =
      ((to_notify (6 : Int)
          (enrich (fun _ => true) (fun _ => .parseError)
            (filter_new id ∅ [RawItem.mk "a" "" "ua" "" "" ""]))).filter
        (fun i => decide ((8 : Int) ≤ i.severity))).length) ∧
    ((run_cycle ⟨6, 8, 3, 8⟩ id (fun _ => true)
        (fun _ => .ok [TriageResult.mk (some true) (some 9) "" (some []),
                       TriageResult.mk (some true) (some 5) "" (some []),
                       TriageResult.mk (some true) (some 3) "" (some [])])
        (fun _ => none) (fun _ _ => none) ∅
        [RawItem.mk "a" "" "ua" "" "" "", RawItem.mk "b" "" "ub" "" "" "",
         RawItem.mk "c" "" "uc" "" "" ""]).1 = 1 ∧
      to_notify 6 (enrich (fun _ => true)
        (fun _ => .ok [TriageResult.mk (some true) (some 9) "" (some []),
                       TriageResult.mk (some true) (some 5) "" (some []),
                       TriageResult.mk (some true) (some 3) "" (some [])])
        [RawItem.mk "a" "" "ua" "" "" "", RawItem.mk "b" "" "ub" "" "" "",
         RawItem.mk "c" "" "uc" "" "" ""]) =
        [EnrichedItem.mk (RawItem.mk "a" "" "ua" "" "" "") "" 9 []])) :=
  run_cycle_contract ⟨6, 8, 3, 8⟩ id (fun _ => true) (fun _ => .parseError)
    (fun _ => none) (fun _ _ => none) ∅ [RawItem.mk "a" "" "ua" "" "" ""]

/-- **C6.** In every cycle with at least one new item, all new items are
marked seen whatever the enrichment outcome, so no raw item is ever
submitted to the enricher twice: each new item's fingerprint is in the
post-cycle store, and the item can never pass a later `filter_new`. -/
theorem run_cycle_marks_new_seen (cfg : CycleConfig) (fp : String → String)
    (budget : Nat → Bool) (outcome : Nat → BatchOutcome)
    (fetch : String → Option String)
    (analyze : EnrichedItem → String → Option DeepAnalysis)
    (seen : Finset String) (raw : List RawItem)
    (hne : filter_new fp seen raw ≠ []) :
    (∀ i ∈ filter_new fp seen raw,
      fp i.id ∈ (run_cycle cfg fp budget outcome fetch analyze seen raw).2) ∧
    (∀ i ∈ filter_new fp seen raw, ∀ raw' : List RawItem,
      i ∉ filter_new fp
        (run_cycle cfg fp budget outcome fetch analyze seen raw).2 raw') := by
  have hnew : (filter_new fp seen raw).isEmpty = false := by
    cases h : filter_new fp seen raw with
    | nil => exact absurd h hne
    | cons a t => rfl
  have hsnd : (run_cycle cfg fp budget outcome fetch analyze seen raw).2 =
      mark_seen fp seen (filter_new fp seen raw) := by
    simp only [run_cycle, hnew, Bool.false_eq_true, if_false]
    split <;> rfl
  have hmem : ∀ i ∈ filter_new fp seen raw,
      fp i.id ∈ (run_cycle cfg fp budget outcome fetch analyze seen raw).2 := by
    intro i hi
    rw [hsnd, mem_mark_seen]
    exact Or.inr ⟨i, hi, rfl⟩
  refine ⟨hmem, ?_⟩
  intro i hi raw' hmem'
  have h := (List.mem_filter.mp hmem').2
  simp only [decide_not, Bool.not_eq_true', decide_eq_false_iff_not] at h
  exact h (hmem i hi)

/-- Witness for C6 with one fresh item and a failing enrichment. -/
theorem run_cycle_marks_new_seen_witness :
    filter_new id ∅ [RawItem.mk "a" "" "ua" "" "" ""] ≠ [] ∧
    ((∀ i ∈ filter_new id ∅ [RawItem.mk "a" "" "ua" "" "" ""],
      id i.id ∈ (run_cycle ⟨6, 8, 3, 8⟩ id (fun _ => true) (fun _ => .apiError)
        (fun _ => none) (fun _ _ => none) ∅
        [RawItem.mk "a" "" "ua" "" "" ""]).2) ∧
    (∀ i ∈ filter_new id ∅ [RawItem.mk "a" "" "ua" "" "" ""],
      ∀ raw' : List RawItem,
        i ∉ filter_new id
          (run_cycle ⟨6, 8, 3, 8⟩ id (fun _ => true) (fun _ => .apiError)
            (fun _ => none) (fun _ _ => none) ∅
            [RawItem.mk "a" "" "ua" "" "" ""]).2 raw')) :=
  ⟨by decide,
    run_cycle_marks_new_seen ⟨6, 8, 3, 8⟩ id (fun _ => true) (fun _ => .apiError)
      (fun _ => none) (fun _ _ => none) ∅ [RawItem.mk "a" "" "ua" "" "" ""]
      (by decide)⟩

/-- **C1.** The adaptive-polling machine of `agent.main`: the loop starts in
NORMAL (`spike_until = None`); a cycle whose count reaches
`SPIKE_TRIGGER_COUNT` puts it in SPIKE with `expires_at = now +
SPIKE_DURATION_SECONDS` whatever the previous state (re-triggering resets,
never accumulates) and sleeps `SPIKE_POLL_SECONDS`; without a trigger the
machine leaves SPIKE exactly when `now >= expires_at` and otherwise keeps
the deadline; the sleep is `SPIKE_POLL_SECONDS` exactly when the post-step
state is SPIKE, else `POLL_INTERVAL_SECONDS`; and the state after a run of
cycles steps compositionally from NORMAL. -/
theorem spike_state_machine (envT envD envSP envPI : Option Int)
    (st : Option Int) (l : List (Nat × Int)) (c : Nat) (now : Int) :
    spikeStateAfter (SPIKE_TRIGGER_COUNT envT) (SPIKE_DURATION_SECONDS envD)
        (SPIKE_POLL_SECONDS envSP) (POLL_INTERVAL_SECONDS envPI) [] = none ∧
    spikeStateAfter (SPIKE_TRIGGER_COUNT envT) (SPIKE_DURATION_SECONDS envD)
        (SPIKE_POLL_SECONDS envSP) (POLL_INTERVAL_SECONDS envPI) (l ++ [(c, now)]) =
      (spikeStep (SPIKE_TRIGGER_COUNT envT) (SPIKE_DURATION_SECONDS envD)
        (SPIKE_POLL_SECONDS envSP) (POLL_INTERVAL_SECONDS envPI)
        (spikeStateAfter (SPIKE_TRIGGER_COUNT envT) (SPIKE_DURATION_SECONDS envD)
          (SPIKE_POLL_SECONDS envSP) (POLL_INTERVAL_SECONDS envPI) l) c now).1 ∧
    (SPIKE_TRIGGER_COUNT envT ≤ (c : Int) →
      (spikeStep (SPIKE_TRIGGER_COUNT envT) (SPIKE_DURATION_SECONDS envD)
          (SPIKE_POLL_SECONDS envSP) (POLL_INTERVAL_SECONDS envPI) st c now).1 =
        some (now + SPIKE_DURATION_SECONDS envD) ∧
      (spikeStep (SPIKE_TRIGGER_COUNT envT) (SPIKE_DURATION_SECONDS envD)
          (SPIKE_POLL_SECONDS envSP) (POLL_INTERVAL_SECONDS envPI) st c now).2 =
        SPIKE_POLL_SECONDS envSP) ∧
    ((c : Int) < SPIKE_TRIGGER_COUNT envT →
      ((spikeStep (SPIKE_TRIGGER_COUNT envT) (SPIKE_DURATION_SECONDS envD)
          (SPIKE_POLL_SECONDS envSP) (POLL_INTERVAL_SECONDS envPI) st c now).1 =
          none ↔
        (st = none ∨ ∃ e, st = some e ∧ e ≤ now)) ∧
      (∀ e, st = some e → now < e →
        (spikeStep (SPIKE_TRIGGER_COUNT envT) (SPIKE_DURATION_SECONDS envD)
            (SPIKE_POLL_SECONDS envSP) (POLL_INTERVAL_SECONDS envPI) st c now).1 =
          some e)) ∧
    ((spikeStep (SPIKE_TRIGGER_COUNT envT) (SPIKE_DURATION_SECONDS envD)
        (SPIKE_POLL_SECONDS envSP) (POLL_INTERVAL_SECONDS envPI) st c now).2 =
      if ((spikeStep (SPIKE_TRIGGER_COUNT envT) (SPIKE_DURATION_SECONDS envD)
          (SPIKE_POLL_SECONDS envSP) (POLL_INTERVAL_SECONDS envPI) st c now).1).isSome
      then SPIKE_POLL_SECONDS envSP else POLL_INTERVAL_SECONDS envPI) := by
  have hdur : (60 : Int) ≤ SPIKE_DURATION_SECONDS envD := le_max_left _ _
  refine ⟨rfl, ?_, ?_, ?_, ?_⟩
  · simp [spikeStateAfter, List.foldl_append]
  · intro htrig
    unfold spikeStep
    rw [if_pos htrig]
    have hlt : now < now + SPIKE_DURATION_SECONDS envD := by omega
    simp [hlt]
  · intro htrig
    have hnt : ¬ SPIKE_TRIGGER_COUNT envT ≤ (c : Int) := by omega
    constructor
    · unfold spikeStep
      rw [if_neg hnt]
      cases st with
      | none => simp
      | some e =>
        by_cases hlt : now < e
        · simp [hlt]
        · simp [hlt]
          omega
    · intro e hst hlt
      subst hst
      unfold spikeStep
      rw [if_neg hnt]
      simp [hlt]
  · unfold spikeStep
    by_cases htrig : SPIKE_TRIGGER_COUNT envT ≤ (c : Int)
    · rw [if_pos htrig]
      have hlt : now < now + SPIKE_DURATION_SECONDS envD := by omega
      simp [hlt]
    · rw [if_neg htrig]
      cases st with
      | none => simp
      | some e =>
        by_cases hlt : now < e <;> simp [hlt]

/-- Witness for C1 in the default environment: one triggering cycle at time
0 from NORMAL. -/
theorem spike_state_machine_witness :
    spikeStateAfter (SPIKE_TRIGGER_COUNT none) (SPIKE_DURATION_SECONDS none)
        (SPIKE_POLL_SECONDS none) (POLL_INTERVAL_SECONDS none) [] = none ∧
    spikeStateAfter (SPIKE_TRIGGER_COUNT none) (SPIKE_DURATION_SECONDS none)
        (SPIKE_POLL_SECONDS none) (POLL_INTERVAL_SECONDS none) ([] ++ [(5, 0)]) =
      (spikeStep (SPIKE_TRIGGER_COUNT none) (SPIKE_DURATION_SECONDS none)
        (SPIKE_POLL_SECONDS none) (POLL_INTERVAL_SECONDS none)
        (spikeStateAfter (SPIKE_TRIGGER_COUNT none) (SPIKE_DURATION_SECONDS none)
          (SPIKE_POLL_SECONDS none) (POLL_INTERVAL_SECONDS none) []) 5 0).1 ∧
    (SPIKE_TRIGGER_COUNT none ≤ ((5 : Nat) : Int) →
      (spikeStep (SPIKE_TRIGGER_COUNT none) (SPIKE_DURATION_SECONDS none)
          (SPIKE_POLL_SECONDS none) (POLL_INTERVAL_SECONDS none) none 5 0).1 =
        some (0 + SPIKE_DURATION_SECONDS none) ∧
      (spikeStep (SPIKE_TRIGGER_COUNT none) (SPIKE_DURATION_SECONDS none)
          (SPIKE_POLL_SECONDS none) (POLL_INTERVAL_SECONDS none) none 5 0).2 =
        SPIKE_POLL_SECONDS none) ∧
    (((5 : Nat) : Int) < SPIKE_TRIGGER_COUNT none →
      ((spikeStep (SPIKE_TRIGGER_COUNT none) (SPIKE_DURATION_SECONDS none)
          (SPIKE_POLL_SECONDS none) (POLL_INTERVAL_SECONDS none) none 5 0).1 =
          none ↔
        ((none : Option Int) = none ∨ ∃ e, (none : Option Int) = some e ∧ e ≤ 0)) ∧
      (∀ e, (none : Option Int) = some e → (0 : Int) < e →
        (spikeStep (SPIKE_TRIGGER_COUNT none) (SPIKE_DURATION_SECONDS none)
            (SPIKE_POLL_SECONDS none) (POLL_INTERVAL_SECONDS none) none 5 0).1 =
          some e)) ∧
    ((spikeStep (SPIKE_TRIGGER_COUNT none) (SPIKE_DURATION_SECONDS none)
        (SPIKE_POLL_SECONDS none) (POLL_INTERVAL_SECONDS none) none 5 0).2 =
      if ((spikeStep (SPIKE_TRIGGER_COUNT none) (SPIKE_DURATION_SECONDS none)
          (SPIKE_POLL_SECONDS none) (POLL_INTERVAL_SECONDS none) none 5 0).1).isSome
      then SPIKE_POLL_SECONDS none else POLL_INTERVAL_SECONDS none) :=
  spike_state_machine none none none none none [] 5 0

lemma fetchLoop_trace_safe (safe : String → Bool) (http : String → HttpResult) :
    ∀ (fuel : Nat) (cur : String), safe cur = true →
      (∀ u ∈ (fetchLoop safe http fuel cur).2, safe u = true) ∧
      (fetchLoop safe http fuel cur).2.length ≤ fuel + 1 := by
  intro fuel
  induction fuel with
  | zero =>
    intro cur hcur
    have htr : (fetchLoop safe http 0 cur).2 = [cur] := by
      rw [fetchLoop]
      cases http cur with
      | exn => rfl
      | resp r =>
        dsimp only
        by_cases h1 : responseTooLarge r = true
        · rw [if_pos h1]
        · rw [if_neg h1]
          by_cases h2 : isRedirectStatus r.statusCode = true
          · rw [if_pos h2]
            by_cases h3 : r.location = ""
            · rw [if_pos h3]
            · rw [if_neg h3]
              by_cases h4 : safe r.location = true
              · rw [if_pos h4]
              · rw [if_neg h4]
          · rw [if_neg h2]
    rw [htr]
    constructor
    · intro u hu
      rw [List.mem_singleton] at hu
      exact hu ▸ hcur
    · simp
  | succ fuel' ih =>
    intro cur hcur
    rw [fetchLoop]
    cases http cur with
    | exn =>
      exact ⟨fun u hu => (List.mem_singleton.mp hu) ▸ hcur, by simp⟩
    | resp r =>
      dsimp only
      by_cases h1 : responseTooLarge r = true
      · rw [if_pos h1]
        exact ⟨fun u hu => (List.mem_singleton.mp hu) ▸ hcur, by simp⟩
      · rw [if_neg h1]
        by_cases h2 : isRedirectStatus r.statusCode = true
        · rw [if_pos h2]
          by_cases h3 : r.location = ""
          · rw [if_pos h3]
            exact ⟨fun u hu => (List.mem_singleton.mp hu) ▸ hcur, by simp⟩
          · rw [if_neg h3]
            by_cases h4 : safe r.location = true
            · rw [if_pos h4]
              obtain ⟨ihsafe, ihlen⟩ := ih r.location h4
              constructor
              · intro u hu
                rcases List.mem_cons.mp hu with h | h
                · exact h ▸ hcur
                · exact ihsafe u h
              · simpa using Nat.succ_le_succ ihlen
            · rw [if_neg h4]
              exact ⟨fun u hu => (List.mem_singleton.mp hu) ▸ hcur, by simp⟩
        · rw [if_neg h2]
          exact ⟨fun u hu => (List.mem_singleton.mp hu) ▸ hcur, by simp⟩

/-- **C10.** The deep-dive fetcher never issues a GET to an unsafe URL:
every URL it requests (the initial one and every followed redirect target)
passes `_is_safe_url` (HTTPS + public resolved IP); at most
`MAX_REDIRECTS + 1` requests are made (at most 5 redirects followed); and
when the initial validation fails it returns `None` without any request. -/
theorem fetch_content_ssrf_safe (parse : String → UrlParts)
    (resolve : String → Option IpAddr) (http : String → HttpResult)
    (extract : String → String) (url : String) :
    (∀ u ∈ (fetch_content parse resolve http extract url).2,
      is_safe_url parse resolve u = true) ∧
    (fetch_content parse resolve http extract url).2.length ≤ MAX_REDIRECTS + 1 ∧
    (is_safe_url parse resolve url = false →
      fetch_content parse resolve http extract url = (none, [])) := by
  by_cases hsafe : is_safe_url parse resolve url = true
  · obtain ⟨hall, hlen⟩ :=
      fetchLoop_trace_safe (is_safe_url parse resolve) http MAX_REDIRECTS url hsafe
    have htr : (fetch_content parse resolve http extract url).2 =
        (fetchLoop (is_safe_url parse resolve) http MAX_REDIRECTS url).2 := by
      rw [fetch_content, if_pos hsafe]
      rcases hfl : fetchLoop (is_safe_url parse resolve) http MAX_REDIRECTS url
        with ⟨res, tr⟩
      cases res with
      | none => rfl
      | some r =>
        dsimp only
        by_cases hp : is_paywalled r.statusCode (extract (r.text.take MAX_RESPONSE_BYTES)) = true
        · rw [if_pos hp]
        · rw [if_neg hp]
    refine ⟨?_, ?_, ?_⟩
    · intro u hu
      exact hall u (htr ▸ hu)
    · rw [htr]; exact hlen
    · intro hfalse
      rw [hsafe] at hfalse
      exact absurd hfalse (by simp)
  · have hfalse : is_safe_url parse resolve url = false := by
      cases h : is_safe_url parse resolve url with
      | true => exact absurd h hsafe
      | false => rfl
    have hfc : fetch_content parse resolve http extract url = (none, []) := by
      rw [fetch_content, if_neg hsafe]
    refine ⟨?_, ?_, fun _ => hfc⟩
    · intro u hu
      rw [hfc] at hu
      exact absurd hu (List.not_mem_nil u)
    · rw [hfc]
      simp [MAX_REDIRECTS]

/-- Witness for C10: an http (non-https) URL is rejected with no request
issued, under concrete parse/resolve/transport oracles. -/
theorem fetch_content_ssrf_safe_witness :
    ((∀ u ∈ (fetch_content (fun _ => UrlParts.mk "http" (some "h"))
        (fun _ => some (IpAddr.v4 (ipv4Addr 93 184 216 34)))
        (fun _ => HttpResult.resp (HttpResponse.mk 200 none "" "body"))
        (fun t => t) "http://h/").2,
      is_safe_url (fun _ => UrlParts.mk "http" (some "h"))
        (fun _ => some (IpAddr.v4 (ipv4Addr 93 184 216 34))) u = true) ∧
    (fetch_content (fun _ => UrlParts.mk "http" (some "h"))
        (fun _ => some (IpAddr.v4 (ipv4Addr 93 184 216 34)))
        (fun _ => HttpResult.resp (HttpResponse.mk 200 none "" "body"))
        (fun t => t) "http://h/").2.length ≤ MAX_REDIRECTS + 1 ∧
    (is_safe_url (fun _ => UrlParts.mk "http" (some "h"))
        (fun _ => some (IpAddr.v4 (ipv4Addr 93 184 216 34))) "http://h/" = false →
      fetch_content (fun _ => UrlParts.mk "http" (some "h"))
        (fun _ => some (IpAddr.v4 (ipv4Addr 93 184 216 34)))
        (fun _ => HttpResult.resp (HttpResponse.mk 200 none "" "body"))
        (fun t => t) "http://h/" = (none, []))) ∧
    is_safe_url (fun _ => UrlParts.mk "http" (some "h"))
      (fun _ => some (IpAddr.v4 (ipv4Addr 93 184 216 34))) "http://h/" = false :=
  ⟨fetch_content_ssrf_safe (fun _ => UrlParts.mk "http" (some "h"))
      (fun _ => some (IpAddr.v4 (ipv4Addr 93 184 216 34)))
      (fun _ => HttpResult.resp (HttpResponse.mk 200 none "" "body"))
      (fun t => t) "http://h/",
    by decide⟩

end ThreatIntel
